import Mathlib

/-
  Verification of the pelagos-mac confirmation coordination subsystem:
  a shallow embedding of src/action_registry.py, src/notify_server.py,
  the filter/hook pipeline of src/pelagos_daemon.py and
  src/hooks/changeExtension.py, together with theorems settling the
  frozen claims about the natural-language specification.

  Python strings are embedded as List Char; Python dicts keyed by
  strings are embedded as association lists (a dict never holds two
  bindings of the same key, and insertion either overwrites in place or
  appends, as CPython dicts do).  Machine time (time.time()) is an
  explicit Int parameter.  Calls into the Python standard library whose
  own semantics are external to this repository (re.compile/search,
  fnmatch.fnmatch) and the dynamic hook lookup are parameters of the
  pipeline (an Env record), so the theorems hold for every behaviour of
  those primitives; a hook body raising an exception is embedded as an
  Except error value.
-/

namespace Pelagos

/-- Python str embedded as a list of characters. -/
abbrev Str := List Char

/-- Shorthand turning a Lean string literal into the embedded type. -/
def str (s : String) : Str := s.toList

/-- Models data.split(sep, 1) locating the first separator: returns the
part before the first ':' and the remainder, or none when no ':' occurs. -/
def splitColonAux : Str → Option (Str × Str)
  | [] => none
  | c :: cs =>
    if c = ':' then some ([], cs)
    else
      match splitColonAux cs with
      | none => none
      | some (a, b) => some (c :: a, b)

/-- Models parts = data.split(chr(58), 1); command = parts[0];
payload = parts[1] if len(parts) > 1 else None. -/
def splitColon (s : Str) : Str × Option Str :=
  match splitColonAux s with
  | none => (s, none)
  | some (a, b) => (a, some b)

/-- Python truthiness of an optional string: None and the empty string
are falsy, every other string is truthy. -/
def truthy : Option Str → Bool
  | some (_ :: _) => true
  | _ => false

/-- Association-list embedding of a Python dict keyed by strings:
dict.get(k). -/
def dictGet (d : List (Str × α)) (k : Str) : Option α :=
  match d with
  | [] => none
  | (k', v) :: rest => if k' = k then some v else dictGet rest k

/-- Dict assignment d[k] = v: overwrites the binding in place when the
key is present, appends otherwise (CPython insertion order). -/
def dictInsert (d : List (Str × α)) (k : Str) (v : α) : List (Str × α) :=
  match d with
  | [] => [(k, v)]
  | (k', v') :: rest =>
    if k' = k then (k, v) :: rest else (k', v') :: dictInsert rest k v

/-- Dict deletion del d[k]: removes the binding of k (a dict holds at
most one, so removing every binding of k is the same operation). -/
def dictErase (d : List (Str × α)) (k : Str) : List (Str × α) :=
  d.filter (fun kv => decide (kv.1 ≠ k))

/-- Dict merge d.update(new): every binding of new is assigned into d in
order, so conflicting keys are last-writer-wins. -/
def dictUpdate (d new : List (Str × α)) : List (Str × α) :=
  new.foldl (fun acc kv => dictInsert acc kv.1 kv.2) d

/-- Embedding of a pathlib.Path value: full is str(path), name is the
final component path.name. -/
structure PyPath where
  full : Str
  name : Str
deriving DecidableEq, Repr

/-- Index of the last dot in a string, as name.rfind(chr(46)). -/
def lastDotIdxAux : Str → Nat → Option Nat → Option Nat
  | [], _, acc => acc
  | c :: cs, i, acc => lastDotIdxAux cs (i + 1) (if c = '.' then some i else acc)

/-- Index of the last dot of a name, or none. -/
def lastDotIdx (s : Str) : Option Nat := lastDotIdxAux s 0 none

/-- pathlib suffix of a final component: name[i:] when the last dot
sits strictly inside the name (0 < i < len(name) - 1), else empty. -/
def pySuffix (name : Str) : Str :=
  match lastDotIdx name with
  | none => []
  | some i => if 0 < i ∧ i < name.length - 1 then name.drop i else []

/-- pathlib stem of a final component: name[:i] under the same
condition as pySuffix, else the whole name. -/
def pyStem (name : Str) : Str :=
  match lastDotIdx name with
  | none => name
  | some i => if 0 < i ∧ i < name.length - 1 then name.take i else name

/-- file_path.suffix for the embedded path. -/
def pathSuffix (p : PyPath) : Str := pySuffix p.name

/-- str.lower(), character by character. -/
def pyLower (s : Str) : Str := s.map Char.toLower

/-- str.lstrip with the dot character: drops every leading dot. -/
def lstripDot (s : Str) : Str := s.dropWhile (fun c => c = '.')

/-- Auxiliary data contributed by hooks (hook_data in _filters_match,
such as the new_extension or contentImage entries): a string-valued
dict. -/
abbrev Overlay := List (Str × Str)

/-- Clause-scoped hook context filter_def.get(context-key, empty dict):
a dict whose values are string-to-string dicts (the changeExtension
clause carries an extensions mapping under the extensions key). -/
abbrev HookContext := List (Str × List (Str × Str))

/-- One filter clause dict from the filters list of an action
definition; absent keys are none.  The fields mirror exactly the keys
read by _filters_match in src/pelagos_daemon.py: type, pattern, target,
ignoreCase, name, context (context defaults to the empty dict). -/
structure FilterDef where
  type : Option Str := none
  pattern : Option Str := none
  target : Option Str := none
  ignoreCase : Option Bool := none
  name : Option Str := none
  context : HookContext := []
deriving DecidableEq, Repr

/-- The configuration keys of an action definition dict that the
embedded functions read: name, extensions (glob patterns), filters
(ordered clause list) and rename (read by execute_scp_action). -/
structure ActionDef where
  name : Option Str := none
  extensions : Option (List Str) := none
  filters : Option (List FilterDef) := none
  rename : Option Bool := none
deriving DecidableEq, Repr

/-- Return shape of a hook implementation, per hooks.HookResult in
src/hooks/init: either a bare bool or a (bool, dict) pair. -/
inductive HookResult where
  | bool (b : Bool)
  | tuple (passed : Bool) (data : Overlay)
deriving DecidableEq, Repr

/-- normalize_hook_result from src/hooks: a tuple passes through, a
bare bool gets an empty overlay.  (The dynamic isinstance check on the
second component is vacuous here because the embedding types it.) -/
def normalize_hook_result : HookResult → Bool × Overlay
  | .bool b => (b, [])
  | .tuple p d => (p, d)

/-- A hook implementation: called with (file_path, clause context); a
raised Python exception is the error case. -/
abbrev HookFn := PyPath → HookContext → Except Unit HookResult

/-- External primitives the pipeline calls into, kept as parameters so
every theorem holds for any behaviour of the Python standard library:
fnmatch s p is fnmatch.fnmatch(s, p); recompile p ic is
re.compile(p, IGNORECASE when ic) returning the compiled search
predicate, or none exactly when re.compile raises re.error; resolve n
is registry.resolve(n), none exactly when it raises KeyError or
ModuleNotFoundError. -/
structure Env where
  fnmatch : Str → Str → Bool
  recompile : Str → Bool → Option (Str → Bool)
  resolve : Str → Option HookFn

/-- The has_source context dict passed to action_matches_common_filters
(bool(context.get(has_source-key)) collapses to this field; a missing
key is false). -/
structure EvalCtx where
  has_source : Bool := false
deriving DecidableEq, Repr

/-- context = context or empty; has_source = bool(context.get(...)). -/
def hasSource : Option EvalCtx → Bool
  | none => false
  | some c => c.has_source

/-- Outcome of one iteration of the clause loop in _filters_match:
fail d is the early return (False, hook_data) with the hook_data
accumulated so far, cont d continues the loop with updated hook_data. -/
inductive ClauseResult where
  | fail (hook_data : Overlay)
  | cont (hook_data : Overlay)
deriving DecidableEq, Repr

/-- Body of the for filter_def in filters loop of _filters_match
(src/pelagos_daemon.py lines 170 to 229), one clause at a time.
Branches in source order: regex (missing or empty pattern fails; a
pattern re.compile rejects fails the whole action, the deliberate
fail-closed choice; then the compiled search runs against path, suffix
or name per target), hook (missing or empty name fails; unresolvable
hook fails; the hook result is normalized, its overlay is merged into
hook_data before the pass check, and a raising hook fails the clause
without propagating), noSource (fails when has_source), and any other
clause type fails. -/
def evalClause (env : Env) (file_path : PyPath) (has_source : Bool)
    (hook_data : Overlay) (filter_def : FilterDef) : ClauseResult :=
  let filter_type := filter_def.type
  if filter_type = some (str "regex") then
    match filter_def.pattern with
    | none => .fail hook_data
    | some p =>
      if p = [] then .fail hook_data
      else
        let target := filter_def.target.getD (str "filename")
        let ignore_case := filter_def.ignoreCase.getD true
        match env.recompile p ignore_case with
        | none => .fail hook_data
        | some search =>
          let target_value :=
            if target = str "path" then file_path.full
            else if target = str "extension" then pathSuffix file_path
            else file_path.name
          if search target_value then .cont hook_data else .fail hook_data
  else if filter_type = some (str "hook") then
    match filter_def.name with
    | none => .fail hook_data
    | some n =>
      if n = [] then .fail hook_data
      else
        match env.resolve n with
        | none => .fail hook_data
        | some hook_func =>
          match hook_func file_path filter_def.context with
          | .error _ => .fail hook_data
          | .ok result =>
            let pd := normalize_hook_result result
            let hook_data' := if pd.2 = [] then hook_data else dictUpdate hook_data pd.2
            if pd.1 then .cont hook_data' else .fail hook_data'
  else if filter_type = some (str "noSource") then
    if has_source then .fail hook_data else .cont hook_data
  else
    .fail hook_data

/-- The clause loop of _filters_match: first failing clause returns
(False, hook_data) immediately, a fully traversed list returns
(True, hook_data). -/
def filtersLoop (env : Env) (file_path : PyPath) (has_source : Bool) :
    Overlay → List FilterDef → Bool × Overlay
  | hook_data, [] => (true, hook_data)
  | hook_data, f :: fs =>
    match evalClause env file_path has_source hook_data f with
    | .fail d => (false, d)
    | .cont d => filtersLoop env file_path has_source d fs

/-- _filters_match from src/pelagos_daemon.py: a missing or empty
filters list passes with an empty overlay, otherwise the clause loop
runs with has_source taken from the context dict. -/
def filters_match (env : Env) (action : ActionDef) (file_path : PyPath)
    (context : Option EvalCtx) : Bool × Overlay :=
  match action.filters with
  | none => (true, [])
  | some fs =>
    if fs = [] then (true, [])
    else filtersLoop env file_path (hasSource context) [] fs

/-- _extensions_match from src/pelagos_daemon.py: a missing or empty
pattern list passes; otherwise the lowercased filename and the
lowercased bare extension (suffix with leading dots stripped) are
matched against each lowercased pattern with fnmatch, passing when
either matches some pattern. -/
def extensions_match (env : Env) (action : ActionDef) (file_path : PyPath) : Bool :=
  match action.extensions with
  | none => true
  | some ps =>
    if ps = [] then true
    else
      let filename := pyLower file_path.name
      let extension := lstripDot (pyLower (pathSuffix file_path))
      ps.any (fun pattern =>
        let np := pyLower pattern
        env.fnmatch filename np || env.fnmatch extension np)

/-- action_matches_common_filters from src/pelagos_daemon.py: the
extension glob gate runs first and returns (False, empty) on failure,
then the filter clauses run. -/
def action_matches_common_filters (env : Env) (action : ActionDef)
    (file_path : PyPath) (context : Option EvalCtx) : Bool × Overlay :=
  if extensions_match env action file_path then
    filters_match env action file_path context
  else
    (false, [])

/-- The hook function of src/hooks/changeExtension.py: always passes;
when the clause context maps the current bare extension (suffix with
dots stripped, lowercased) to a truthy new extension, the overlay binds
new_extension to it, otherwise the overlay is empty. -/
def changeExtension_hook (file_path : PyPath) (context : HookContext) : HookResult :=
  if context = [] then .tuple true []
  else
    let extensions := (dictGet context (str "extensions")).getD []
    if extensions = [] then .tuple true []
    else
      let current_ext := pyLower (lstripDot (pathSuffix file_path))
      match dictGet extensions current_ext with
      | none => .tuple true []
      | some new_ext =>
        if new_ext = [] then .tuple true []
        else .tuple true [(str "new_extension", new_ext)]

/-- The filename computation of execute_scp_action in
src/pelagos_daemon.py lines 888 to 952: hook_data is the overlay popped
from the action; the rename key currently keeps the original
filename in both branches (template support is a source TODO); when the
overlay holds a truthy new_extension, the transferred filename becomes
stem of the name plus a dot plus the new extension.  (The actual scp
subprocess invocation is process-external and out of the embedding; the
remote path is target slash this filename.) -/
def execute_scp_filename (action : ActionDef) (file_path : PyPath)
    (hook_data : Overlay) : Str :=
  let new_extension := dictGet hook_data (str "new_extension")
  let filename := if action.rename.getD false then file_path.name else file_path.name
  match new_extension with
  | none => filename
  | some ne =>
    if ne = [] then filename
    else pyStem filename ++ '.' :: ne

/-- One record of ActionRegistry (src/action_registry.py): the stored
dict with keys file_path (str(file_path)), action (a dict, or None for
the multiple-choice case), action_type, available_actions and
timestamp (time.time(), embedded as Int seconds). -/
structure PendingAction where
  file_path : Str
  action : Option ActionDef
  action_type : Str
  available_actions : Option (List ActionDef)
  timestamp : Int
deriving DecidableEq, Repr

/-- The in-memory store of ActionRegistry: the _pending_actions dict. -/
abbrev Registry := List (Str × PendingAction)

/-- ActionRegistry.register_action: stores the record under the derived
hash and returns the hash.  The hash itself is
sha256(str(file_path) + chr(58) + str(time.time()))[:16], a call into
hashlib whose value is kept as the explicit action_hash parameter, and
now is the time.time() instant of the call. -/
def register_action (reg : Registry) (action_hash : Str) (file_path : PyPath)
    (action : Option ActionDef) (action_type : Str)
    (available_actions : Option (List ActionDef)) (now : Int) : Str × Registry :=
  (action_hash,
   dictInsert reg action_hash
     { file_path := file_path.full
       action := action
       action_type := action_type
       available_actions := available_actions
       timestamp := now })

/-- ActionRegistry.get_action: dict get, None when absent. -/
def get_action (reg : Registry) (action_hash : Str) : Option PendingAction :=
  dictGet reg action_hash

/-- ActionRegistry.remove_action: when the key is present it is
deleted and True is returned, otherwise False. -/
def remove_action (reg : Registry) (action_hash : Str) : Bool × Registry :=
  match dictGet reg action_hash with
  | some _ => (true, dictErase reg action_hash)
  | none => (false, reg)

/-- ActionRegistry.cleanup_old_actions: collects the keys whose age
current_time minus timestamp strictly exceeds max_age_seconds, deletes
each collected key, and returns how many keys were collected. -/
def cleanup_old_actions (reg : Registry) (max_age_seconds : Int)
    (current_time : Int) : Nat × Registry :=
  let expired_keys :=
    (reg.filter (fun kv => decide (current_time - kv.2.timestamp > max_age_seconds))).map
      Prod.fst
  let reg' := expired_keys.foldl (fun r k => dictErase r k) reg
  (expired_keys.length, reg')

/-- The mutable state of NotificationServer (src/notify_server.py)
relevant to message handling, together with the global action registry
the EXECUTE and ACTION branches mutate through get_registry():
current_response is the decision slot, response_event the waiter wakeup
flag (threading.Event embedded as its set bit). -/
structure ServerState where
  current_response : Option Str
  response_event : Bool
  registry : Registry
deriving DecidableEq, Repr

/-- Result of one iteration of the receive loop in
NotificationServer._handle_client for one received message: the state
afterwards, whether the acknowledgment send at the end of the loop body
was reached (ack), and whether the handler broke out of the loop, after
which the connection is closed (brk). -/
structure StepOut where
  state : ServerState
  ack : Bool
  brk : Bool
deriving DecidableEq, Repr

/-- One iteration of the receive loop of
NotificationServer._handle_client (src/notify_server.py lines 70 to
152) on a nonempty decoded message data.  The message splits once at
the first colon into command and optional payload.  SHOWN only logs.
EXECUTE stores the full message in the decision slot, sets the event,
removes a truthy payload hash from the action registry, and breaks out
of the loop, which skips the acknowledgment send.  ACTION does the
same, where the payload itself must split again into a name and the
hash to remove.  SKIP, DIALOG and TIMEOUT only log; they and any
unrecognized command fall through to the acknowledgment send and keep
the loop running. -/
def handle_message (s : ServerState) (data : Str) : StepOut :=
  let parts := splitColon data
  let command := parts.1
  let action_hash := parts.2
  if command = str "SHOWN" then
    { state := s, ack := true, brk := false }
  else if command = str "EXECUTE" then
    let s1 := { s with current_response := some data, response_event := true }
    let s2 :=
      if truthy action_hash then
        { s1 with registry := (remove_action s1.registry (action_hash.getD [])).2 }
      else s1
    { state := s2, ack := false, brk := true }
  else if command = str "ACTION" then
    let s1 := { s with current_response := some data, response_event := true }
    let s2 :=
      if truthy action_hash then
        match splitColon (action_hash.getD []) with
        | (_, some actual_hash) =>
          { s1 with registry := (remove_action s1.registry actual_hash).2 }
        | (_, none) => s1
      else s1
    { state := s2, ack := false, brk := true }
  else if command = str "SKIP" then
    { state := s, ack := true, brk := false }
  else if command = str "DIALOG" ∨ command = str "TIMEOUT" then
    { state := s, ack := true, brk := false }
  else
    { state := s, ack := true, brk := false }

/-- Decision logic of confirm_action_execution (src/pelagos_daemon.py
lines 281 to 329).  already_confirmed is action.get of the _confirmed
marker; action_hash is what _try_banner_notification returned (None
when no banner could be shown); response is what
notification_server.wait_for_response(timeout=30) returned, which is
None exactly when no decision message set the response event within
the 30 second timeout (src/notify_server.py lines 154 to 165).  On a
truthy response whose command part is EXECUTE the outcome is accepted
(the server already retired the registry entry); on timeout the
orchestrator itself removes the now stale hash from the registry and
the outcome is timeout; otherwise the outcome is user_skip.  Returned:
(confirmed flag, reason string, registry afterwards). -/
def confirm_action_execution (reg : Registry) (already_confirmed : Bool)
    (action_hash : Option Str) (response : Option Str) :
    Bool × Str × Registry :=
  if already_confirmed then (true, str "already_confirmed", reg)
  else if truthy action_hash then
    if truthy response then
      let command := (splitColon (response.getD [])).1
      if command = str "EXECUTE" then (true, str "accepted", reg)
      else (false, str "user_skip", reg)
    else
      (false, str "timeout", (remove_action reg (action_hash.getD [])).2)
  else
    (false, str "user_skip", reg)

/-- Looking up a key right after assigning it finds the assigned value. -/
theorem dictGet_insert_self (d : List (Str × α)) (k : Str) (v : α) :
    dictGet (dictInsert d k v) k = some v := by
  induction d with
  | nil => simp [dictInsert, dictGet]
  | cons kv rest ih =>
    obtain ⟨k', v'⟩ := kv
    by_cases h : k' = k
    · simp [dictInsert, dictGet, h]
    · simp [dictInsert, dictGet, h, ih]

/-- Looking up a key right after deleting it finds nothing. -/
theorem dictGet_erase_self (d : List (Str × α)) (k : Str) :
    dictGet (dictErase d k) k = none := by
  induction d with
  | nil => simp [dictErase, dictGet]
  | cons kv rest ih =>
    obtain ⟨k', v'⟩ := kv
    by_cases h : k' = k
    · simpa [dictErase, h] using ih
    · simpa [dictErase, dictGet, h] using ih

/-- After remove_action the key is gone, whether or not it was there. -/
theorem get_after_remove (reg : Registry) (k : Str) :
    get_action (remove_action reg k).2 k = none := by
  cases h : dictGet reg k with
  | none => simp [remove_action, get_action, h]
  | some v => simp [remove_action, get_action, h, dictGet_erase_self]

/-- C4: for every subject path, action definition, kind and optional
alternatives list, register_action returns the derived handle and
stores exactly the given fields, so get_action finds the record with
those fields; after remove_action the handle is not found; and
remove_action returns true exactly when an entry existed, so a second
remove_action of the same handle returns false. -/
theorem registry_register_get_remove (reg : Registry) (h : Str) (fp : PyPath)
    (act : Option ActionDef) (kind : Str) (alts : Option (List ActionDef))
    (now : Int) :
    (register_action reg h fp act kind alts now).1 = h ∧
    get_action (register_action reg h fp act kind alts now).2 h =
      some { file_path := fp.full, action := act, action_type := kind,
             available_actions := alts, timestamp := now } ∧
    get_action (remove_action (register_action reg h fp act kind alts now).2 h).2 h
      = none ∧
    (remove_action (register_action reg h fp act kind alts now).2 h).1 = true ∧
    (remove_action reg h).1 = (get_action reg h).isSome ∧
    (remove_action (remove_action reg h).2 h).1 = false := by
  refine ⟨rfl, ?_, get_after_remove _ _, ?_, ?_, ?_⟩
  · exact dictGet_insert_self reg h _
  · simp [remove_action, get_action, register_action, dictGet_insert_self]
  · cases hg : dictGet reg h <;> simp [remove_action, get_action, hg]
  · cases hg : dictGet reg h with
    | none => simp [remove_action, hg]
    | some v => simp [remove_action, hg, dictGet_erase_self]

/-- Deleting a list of keys one by one is filtering every listed key
out. -/
theorem foldl_dictErase (keys : List Str) (d : List (Str × α)) :
    keys.foldl (fun r k => dictErase r k) d
      = d.filter (fun kv => decide (kv.1 ∉ keys)) := by
  induction keys generalizing d with
  | nil => simp
  | cons k ks ih =>
    rw [List.foldl_cons, ih]
    unfold dictErase
    rw [List.filter_filter]
    apply List.filter_congr
    intro kv _
    by_cases h1 : kv.1 = k <;> by_cases h2 : kv.1 ∈ ks <;> simp [h1, h2]

/-- In a list with pairwise distinct first components, membership
together with equal first components forces equality. -/
theorem eq_of_fst_eq_of_keysNodup {l : List (Str × α)}
    (hnd : (l.map Prod.fst).Nodup) {a b : Str × α}
    (ha : a ∈ l) (hb : b ∈ l) (hfst : a.1 = b.1) : a = b := by
  induction l with
  | nil => cases ha
  | cons hd tl ih =>
    rw [List.map_cons, List.nodup_cons] at hnd
    rcases List.mem_cons.mp ha with ha' | ha' <;>
      rcases List.mem_cons.mp hb with hb' | hb'
    · rw [ha', hb']
    · exfalso
      apply hnd.1
      have hmem : b.1 ∈ tl.map Prod.fst := List.mem_map_of_mem Prod.fst hb'
      rw [ha'] at hfst
      rwa [← hfst] at hmem
    · exfalso
      apply hnd.1
      have hmem : a.1 ∈ tl.map Prod.fst := List.mem_map_of_mem Prod.fst ha'
      rw [hb'] at hfst
      rwa [hfst] at hmem
    · exact ih hnd.2 ha' hb'

/-- With pairwise distinct keys, a key of a stored entry is among the
keys of the entries satisfying p exactly when the entry itself
satisfies p. -/
theorem mem_filter_keys_iff {l : List (Str × α)} (p : Str × α → Bool)
    (hnd : (l.map Prod.fst).Nodup) {kv : Str × α} (hkv : kv ∈ l) :
    kv.1 ∈ (l.filter p).map Prod.fst ↔ p kv = true := by
  constructor
  · intro hmem
    rcases List.mem_map.mp hmem with ⟨kv', hkv', hfst⟩
    rcases List.mem_filter.mp hkv' with ⟨hkv'l, hp⟩
    rwa [eq_of_fst_eq_of_keysNodup hnd hkv hkv'l hfst.symm]
  · intro hp
    exact List.mem_map_of_mem Prod.fst (List.mem_filter.mpr ⟨hkv, hp⟩)

/-- C5: on a registry whose keys are pairwise distinct (the dict
invariant), cleanup_old_actions removes exactly the entries whose age
strictly exceeds the threshold, keeps every other entry verbatim and in
order, returns the number of removed entries, and a second sweep at the
same instant removes zero further entries. -/
theorem registry_sweep_expired (reg : Registry) (maxAge now : Int)
    (hnd : (reg.map Prod.fst).Nodup) :
    (cleanup_old_actions reg maxAge now).2 =
      reg.filter (fun kv => decide (now - kv.2.timestamp ≤ maxAge)) ∧
    (cleanup_old_actions reg maxAge now).1 =
      (reg.filter (fun kv => decide (now - kv.2.timestamp > maxAge))).length ∧
    cleanup_old_actions (cleanup_old_actions reg maxAge now).2 maxAge now =
      (0, (cleanup_old_actions reg maxAge now).2) := by
  have hunfold : cleanup_old_actions reg maxAge now =
      (((reg.filter (fun kv => decide (now - kv.2.timestamp > maxAge))).map
          Prod.fst).length,
       ((reg.filter (fun kv => decide (now - kv.2.timestamp > maxAge))).map
          Prod.fst).foldl (fun r k => dictErase r k) reg) := rfl
  have hreg' : (cleanup_old_actions reg maxAge now).2 =
      reg.filter (fun kv => decide (now - kv.2.timestamp ≤ maxAge)) := by
    rw [hunfold, foldl_dictErase]
    apply List.filter_congr
    intro kv hkv
    have h2 : kv.1 ∈ (reg.filter fun kv =>
        decide (now - kv.2.timestamp > maxAge)).map Prod.fst ↔
        now - kv.2.timestamp > maxAge := by
      constructor
      · intro hm
        exact of_decide_eq_true
          ((mem_filter_keys_iff (fun kv => decide (now - kv.2.timestamp > maxAge))
            hnd hkv).mp hm)
      · intro hgt
        exact (mem_filter_keys_iff (fun kv => decide (now - kv.2.timestamp > maxAge))
            hnd hkv).mpr (decide_eq_true hgt)
    rw [decide_eq_decide, h2]
    exact not_lt
  refine ⟨hreg', ?_, ?_⟩
  · rw [hunfold]
    simp
  · have hnilexp : ((cleanup_old_actions reg maxAge now).2).filter
        (fun kv => decide (now - kv.2.timestamp > maxAge)) = [] := by
      rw [hreg', List.filter_filter]
      apply List.filter_eq_nil_iff.mpr
      intro kv _
      simp only [Bool.and_eq_true, decide_eq_true_eq]
      omega
    have hunfold2 : cleanup_old_actions (cleanup_old_actions reg maxAge now).2
        maxAge now =
        ((((cleanup_old_actions reg maxAge now).2.filter
            (fun kv => decide (now - kv.2.timestamp > maxAge))).map
            Prod.fst).length,
         (((cleanup_old_actions reg maxAge now).2.filter
            (fun kv => decide (now - kv.2.timestamp > maxAge))).map
            Prod.fst).foldl (fun r k => dictErase r k)
           (cleanup_old_actions reg maxAge now).2) := rfl
    rw [hunfold2, hnilexp]
    simp

/-- A concrete stored record used by the concrete witnesses below. -/
def paX : PendingAction :=
  { file_path := str "x.zip", action := none, action_type := str "single",
    available_actions := none, timestamp := 0 }

/-- A concrete registry holding paX under the handle abcd. -/
def regX : Registry := [(str "abcd", paX)]

/-- A concrete idle server state whose registry is regX. -/
def stateX : ServerState :=
  { current_response := none, response_event := false, registry := regX }

/-- A concrete idle server state with an empty registry. -/
def stateEmpty : ServerState :=
  { current_response := none, response_event := false, registry := [] }

/-- A concrete registry with distinct keys, one stale entry and one
fresh entry, for the sweep witness. -/
def regSweep : Registry :=
  [(str "old1", { paX with timestamp := 0 }),
   (str "new1", { paX with timestamp := 900 })]

/-- Witness for registry_sweep_expired: sweeping regSweep at instant
1000 with threshold 300 keeps exactly the fresh entry, removes one
entry, and a second sweep removes nothing. -/
theorem registry_sweep_expired_witness :
    (regSweep.map Prod.fst).Nodup ∧
    ((cleanup_old_actions regSweep 300 1000).2 =
        regSweep.filter (fun kv => decide (1000 - kv.2.timestamp ≤ 300)) ∧
      (cleanup_old_actions regSweep 300 1000).1 =
        (regSweep.filter (fun kv => decide (1000 - kv.2.timestamp > 300))).length ∧
      cleanup_old_actions (cleanup_old_actions regSweep 300 1000).2 300 1000 =
        (0, (cleanup_old_actions regSweep 300 1000).2)) :=
  ⟨by decide, registry_sweep_expired regSweep 300 1000 (by decide)⟩

/-- Splitting once at the first colon of a string built as prefix,
colon, remainder recovers the two parts when the prefix holds no
colon. -/
theorem splitColonAux_append (a b : Str) (ha : ':' ∉ a) :
    splitColonAux (a ++ ':' :: b) = some (a, b) := by
  induction a with
  | nil => simp [splitColonAux]
  | cons c rest ih =>
    have hc : ¬ c = ':' := fun h => ha (h ▸ List.mem_cons_self c rest)
    have hrest : ':' ∉ rest := fun h => ha (List.mem_cons_of_mem c h)
    simp [splitColonAux, hc, ih hrest]

/-- Parsing a message of shape command, colon, payload yields that
command and that payload when the command holds no colon. -/
theorem splitColon_append (a b : Str) (ha : ':' ∉ a) :
    splitColon (a ++ ':' :: b) = (a, some b) := by
  simp [splitColon, splitColonAux_append a b ha]

/-- Every message parsing to a SHOWN, SKIP, DIALOG or TIMEOUT command
leaves the whole server state untouched and keeps the receive loop
running with the acknowledgment sent. -/
theorem handle_message_informational (s : ServerState) (data : Str)
    (hcmd : (splitColon data).1 ∈
      [str "SHOWN", str "SKIP", str "DIALOG", str "TIMEOUT"]) :
    handle_message s data = { state := s, ack := true, brk := false } := by
  simp only [List.mem_cons, List.not_mem_nil, or_false] at hcmd
  rcases hcmd with h | h | h | h <;>
    simp +decide [handle_message, h]

/-- Processing EXECUTE with a nonempty handle stores the full message
in the decision slot, sets the response event, removes the handle from
the registry, and breaks out of the loop without reaching the
acknowledgment send. -/
theorem handle_message_execute (s : ServerState) (h : Str) (hne : h ≠ []) :
    handle_message s (str "EXECUTE:" ++ h) =
      { state :=
          { current_response := some (str "EXECUTE:" ++ h)
            response_event := true
            registry := (remove_action s.registry h).2 }
        ack := false
        brk := true } := by
  have hsplit : splitColon (str "EXECUTE:" ++ h) = (str "EXECUTE", some h) := by
    have heq : str "EXECUTE:" ++ h = str "EXECUTE" ++ ':' :: h := rfl
    rw [heq]
    exact splitColon_append _ _ (by decide)
  have htr : truthy (some h) = true := by
    cases h with
    | nil => exact absurd rfl hne
    | cons c cs => rfl
  simp +decide [handle_message, hsplit, htr]

/-- C1: once EXECUTE with handle h has been processed (the decision
slot holds the full EXECUTE message, the waiter wakeup flag is set, h
is removed from the action registry), processing a subsequent SKIP for
the same handle changes nothing: the whole state is preserved, the
recorded decision still stands, and h is still absent from the
registry. -/
theorem execute_then_skip_stands (s : ServerState) (h : Str) (hne : h ≠ []) :
    (handle_message s (str "EXECUTE:" ++ h)).state =
      { current_response := some (str "EXECUTE:" ++ h)
        response_event := true
        registry := (remove_action s.registry h).2 } ∧
    (handle_message (handle_message s (str "EXECUTE:" ++ h)).state
        (str "SKIP:" ++ h)).state =
      (handle_message s (str "EXECUTE:" ++ h)).state ∧
    get_action (handle_message s (str "EXECUTE:" ++ h)).state.registry h = none ∧
    (handle_message (handle_message s (str "EXECUTE:" ++ h)).state
        (str "SKIP:" ++ h)).state.current_response =
      some (str "EXECUTE:" ++ h) ∧
    get_action (handle_message (handle_message s (str "EXECUTE:" ++ h)).state
        (str "SKIP:" ++ h)).state.registry h = none := by
  have hexec := handle_message_execute s h hne
  have hskipsplit : splitColon (str "SKIP:" ++ h) = (str "SKIP", some h) := by
    have heq : str "SKIP:" ++ h = str "SKIP" ++ ':' :: h := rfl
    rw [heq]
    exact splitColon_append _ _ (by decide)
  have hskip := handle_message_informational
    (handle_message s (str "EXECUTE:" ++ h)).state (str "SKIP:" ++ h)
    (by
      rw [hskipsplit]
      show str "SKIP" ∈ [str "SHOWN", str "SKIP", str "DIALOG", str "TIMEOUT"]
      decide)
  refine ⟨by rw [hexec], by rw [hskip], ?_, ?_, ?_⟩
  · rw [hexec]
    exact get_after_remove _ _
  · rw [hskip, hexec]
  · rw [hskip, hexec]
    exact get_after_remove _ _

/-- Witness for execute_then_skip_stands at a concrete state holding
the handle abcd, which EXECUTE retires and SKIP does not resurrect. -/
theorem execute_then_skip_stands_witness :
    str "abcd" ≠ ([] : Str) ∧
    get_action (handle_message stateX
      (str "EXECUTE:" ++ str "abcd")).state.registry (str "abcd") = none :=
  ⟨by decide, (execute_then_skip_stands stateX (str "abcd") (by decide)).2.2.1⟩

/-- C9: a SHOWN, SKIP, DIALOG or TIMEOUT message never sets the
decision slot, never wakes a waiter, and never touches the registry:
the entire server state after handling equals the state before, for the
bare and the with-handle forms alike. -/
theorem informational_commands_frame (s : ServerState) (data : Str)
    (hcmd : (splitColon data).1 ∈
      [str "SHOWN", str "SKIP", str "DIALOG", str "TIMEOUT"]) :
    (handle_message s data).state = s := by
  rw [handle_message_informational s data hcmd]

/-- Witness for informational_commands_frame on a concrete SKIP message
naming a handle that is present in the registry and stays there. -/
theorem informational_commands_frame_witness :
    (splitColon (str "SKIP:abcd")).1 ∈
      [str "SHOWN", str "SKIP", str "DIALOG", str "TIMEOUT"] ∧
    (handle_message stateX (str "SKIP:abcd")).state = stateX :=
  ⟨by decide, informational_commands_frame stateX (str "SKIP:abcd") (by decide)⟩

/-- C2 is violated by the code: the EXECUTE and ACTION branches break
out of the receive loop before the acknowledgment send line, so those
two commands are answered with no ACK at all, while SHOWN, SKIP, DIALOG
and TIMEOUT do get exactly one ACK.  This theorem evaluates the handler
at the failing inputs: a concrete EXECUTE and a concrete ACTION message
produce no acknowledgment and close the connection, a concrete SKIP
produces one. -/
theorem execute_sends_no_ack :
    (handle_message stateEmpty (str "EXECUTE:deadbeefcafe0123")).ack = false ∧
    (handle_message stateEmpty (str "EXECUTE:deadbeefcafe0123")).brk = true ∧
    (handle_message stateEmpty (str "ACTION:Manga:deadbeefcafe0123")).ack = false ∧
    (handle_message stateEmpty (str "SKIP:deadbeefcafe0123")).ack = true := by
  decide

/-- C8: when the banner produced a handle and wait_for_response came
back with None after the 30 second timeout, confirm_action_execution
resolves to the timeout outcome and itself removes the stale handle, so
get_action no longer finds it. -/
theorem confirm_timeout_removes_handle (reg : Registry) (h : Str)
    (hne : h ≠ []) :
    confirm_action_execution reg false (some h) none =
      (false, str "timeout", (remove_action reg h).2) ∧
    get_action (confirm_action_execution reg false (some h) none).2.2 h = none := by
  have htr : truthy (some h) = true := by
    cases h with
    | nil => exact absurd rfl hne
    | cons c cs => rfl
  have htn : truthy (none : Option Str) = false := rfl
  have hmain : confirm_action_execution reg false (some h) none =
      (false, str "timeout", (remove_action reg h).2) := by
    simp [confirm_action_execution, htr, htn]
  exact ⟨hmain, by rw [hmain]; exact get_after_remove _ _⟩

/-- Witness for confirm_timeout_removes_handle on a concrete registry
holding the handle abcd. -/
theorem confirm_timeout_removes_handle_witness :
    str "abcd" ≠ ([] : Str) ∧
    get_action (confirm_action_execution regX false (some (str "abcd"))
      none).2.2 (str "abcd") = none :=
  ⟨by decide, (confirm_timeout_removes_handle regX (str "abcd") (by decide)).2⟩

/-- A clause that fails from every accumulated overlay forces the
clause loop to return fail once the loop reaches it, whatever the
clauses around it do. -/
theorem filtersLoop_false_of_mem (env : Env) (fp : PyPath) (hs : Bool)
    (C : FilterDef) (l : List FilterDef) (hC : C ∈ l)
    (hfail : ∀ hd, evalClause env fp hs hd C = .fail hd) :
    ∀ hd, (filtersLoop env fp hs hd l).1 = false := by
  induction l with
  | nil => cases hC
  | cons f fs ih =>
    intro hd
    rcases List.mem_cons.mp hC with rfl | hmem
    · simp [filtersLoop, hfail hd]
    · cases hres : evalClause env fp hs hd f with
      | fail d => simp [filtersLoop, hres]
      | cont d =>
        simp only [filtersLoop, hres]
        exact ih hmem d

/-- A regex clause whose truthy pattern re.compile rejects fails from
any accumulated overlay, leaving the overlay as it was. -/
theorem evalClause_bad_regex (env : Env) (fp : PyPath) (hs : Bool)
    (C : FilterDef) (p : Str) (htype : C.type = some (str "regex"))
    (hpat : C.pattern = some p) (hne : p ≠ [])
    (hcomp : env.recompile p (C.ignoreCase.getD true) = none) :
    ∀ hd, evalClause env fp hs hd C = .fail hd := by
  intro hd
  simp +decide [evalClause, htype, hpat, hne, hcomp]

/-- A hook clause whose resolved implementation raises fails from any
accumulated overlay, leaving the overlay as it was; the exception stops
at the clause. -/
theorem evalClause_hook_raises (env : Env) (fp : PyPath) (hs : Bool)
    (C : FilterDef) (n : Str) (f : HookFn) (e : Unit)
    (htype : C.type = some (str "hook")) (hname : C.name = some n)
    (hne : n ≠ []) (hres : env.resolve n = some f)
    (hraise : f fp C.context = .error e) :
    ∀ hd, evalClause env fp hs hd C = .fail hd := by
  intro hd
  simp +decide [evalClause, htype, hname, hne, hres, hraise]

/-- A clause whose type is none of regex, hook and noSource fails from
any accumulated overlay. -/
theorem evalClause_unknown_type (env : Env) (fp : PyPath) (hs : Bool)
    (C : FilterDef) (h1 : C.type ≠ some (str "regex"))
    (h2 : C.type ≠ some (str "hook")) (h3 : C.type ≠ some (str "noSource")) :
    ∀ hd, evalClause env fp hs hd C = .fail hd := by
  intro hd
  simp [evalClause, h1, h2, h3]

/-- If some declared clause fails from every accumulated overlay, the
whole action evaluates to fail. -/
theorem action_matches_false_of_bad_clause (env : Env) (a : ActionDef)
    (fp : PyPath) (ctx : Option EvalCtx) (C : FilterDef) (l : List FilterDef)
    (hfilters : a.filters = some l) (hC : C ∈ l)
    (hfail : ∀ hd, evalClause env fp (hasSource ctx) hd C = .fail hd) :
    (action_matches_common_filters env a fp ctx).1 = false := by
  cases hext : extensions_match env a fp with
  | false => simp [action_matches_common_filters, hext]
  | true =>
    have hl : l ≠ [] := List.ne_nil_of_mem hC
    have hfm : filters_match env a fp ctx =
        filtersLoop env fp (hasSource ctx) [] l := by
      simp [filters_match, hfilters, hl]
    simp only [action_matches_common_filters, hext, if_true, hfm]
    exact filtersLoop_false_of_mem env fp (hasSource ctx) C l hC hfail []

/-- C6: pipeline evaluation is ordered and short-circuits.  First: an
action whose extension glob gate fails evaluates to fail with an empty
overlay, its clauses never run.  Second: when the gate passes, the
result is exactly the clause loop in declaration order.  Third: for a
clause list of A then B where A fails from the empty overlay with
accumulated overlay d, the whole evaluation is fail with exactly d, for
every clause B whatsoever, so B is never evaluated and its overlay is
never merged. -/
theorem pipeline_ordered_short_circuit (env : Env) (fp : PyPath)
    (ctx : Option EvalCtx) (a aB : ActionDef) (A B : FilterDef) (d : Overlay)
    (hextfail : extensions_match env a fp = false)
    (hA : evalClause env fp (hasSource ctx) [] A = .fail d)
    (hBfilters : aB.filters = some [A, B])
    (hBext : extensions_match env aB fp = true) :
    action_matches_common_filters env a fp ctx = (false, []) ∧
    (∀ a2, extensions_match env a2 fp = true →
      action_matches_common_filters env a2 fp ctx =
        filters_match env a2 fp ctx) ∧
    action_matches_common_filters env aB fp ctx = (false, d) := by
  refine ⟨?_, ?_, ?_⟩
  · simp [action_matches_common_filters, hextfail]
  · intro a2 h2
    simp [action_matches_common_filters, h2]
  · simp [action_matches_common_filters, hBext, filters_match, hBfilters,
      filtersLoop, hA]

/-- The environment for the concrete hook scenarios: fnmatch and
re.compile are irrelevant stubs, and the hook lookup resolves the name
changeExtension to the hook of src/hooks/changeExtension.py, which
never raises. -/
def envCE : Env :=
  { fnmatch := fun _ _ => false
    recompile := fun _ _ => none
    resolve := fun n =>
      if n = str "changeExtension" then
        some (fun fp c => .ok (changeExtension_hook fp c))
      else none }

/-- The file x.zip of the scenario. -/
def fpX : PyPath := { full := str "x.zip", name := str "x.zip" }

/-- The clause context carrying the extension mapping zip to cbz. -/
def ctxCE : HookContext := [(str "extensions", [(str "zip", str "cbz")])]

/-- The hook filter clause naming changeExtension with that mapping. -/
def clauseCE : FilterDef :=
  { type := some (str "hook"), name := some (str "changeExtension"),
    context := ctxCE }

/-- An action definition whose single filter clause is clauseCE. -/
def actionCE : ActionDef := { filters := some [clauseCE] }

/-- A noSource clause: fails whenever the file has a known source. -/
def clauseNoSource : FilterDef := { type := some (str "noSource") }

/-- An evaluation context where the file has a known source. -/
def ctxSrc : Option EvalCtx := some { has_source := true }

/-- An action whose glob patterns never match under the stubbed
fnmatch. -/
def actionExtFail : ActionDef := { extensions := some [str "zip"] }

/-- An action declaring the failing clause A before the would-pass
clause B. -/
def actionAB : ActionDef := { filters := some [clauseNoSource, clauseCE] }

/-- Witness for pipeline_ordered_short_circuit: with a known source the
noSource clause A fails first; the changeExtension clause B would pass
and contribute an overlay, yet the result is fail with the overlay of A
alone (empty). -/
theorem pipeline_ordered_short_circuit_witness :
    extensions_match envCE actionExtFail fpX = false ∧
    evalClause envCE fpX (hasSource ctxSrc) [] clauseNoSource = .fail [] ∧
    actionAB.filters = some [clauseNoSource, clauseCE] ∧
    extensions_match envCE actionAB fpX = true ∧
    action_matches_common_filters envCE actionAB fpX ctxSrc = (false, []) :=
  ⟨by decide, by decide, by decide, by decide,
   (pipeline_ordered_short_circuit envCE fpX ctxSrc actionExtFail actionAB
      clauseNoSource clauseCE [] (by decide) (by decide) (by decide)
      (by decide)).2.2⟩

/-- C7: a declared regex clause with a truthy pattern that re.compile
rejects, or a declared hook clause whose resolved implementation
raises, makes the pipeline evaluate the whole action to fail; and no
exception propagates, because evalClause is total and consumes the
error case of the hook. -/
theorem invalid_regex_or_raising_hook_fails_action (env : Env)
    (a : ActionDef) (fp : PyPath) (ctx : Option EvalCtx) (C : FilterDef)
    (l : List FilterDef) (hfilters : a.filters = some l) (hC : C ∈ l)
    (hbad :
      (∃ p, C.type = some (str "regex") ∧ C.pattern = some p ∧ p ≠ [] ∧
        env.recompile p (C.ignoreCase.getD true) = none) ∨
      (∃ n f e, C.type = some (str "hook") ∧ C.name = some n ∧ n ≠ [] ∧
        env.resolve n = some f ∧ f fp C.context = .error e)) :
    (action_matches_common_filters env a fp ctx).1 = false := by
  apply action_matches_false_of_bad_clause env a fp ctx C l hfilters hC
  rcases hbad with ⟨p, h1, h2, h3, h4⟩ | ⟨n, f, e, h1, h2, h3, h4, h5⟩
  · exact evalClause_bad_regex env fp (hasSource ctx) C p h1 h2 h3 h4
  · exact evalClause_hook_raises env fp (hasSource ctx) C n f e h1 h2 h3 h4 h5

/-- An environment where re.compile rejects every pattern and a hook
named boom raises. -/
def envBad : Env :=
  { fnmatch := fun _ _ => false
    recompile := fun _ _ => none
    resolve := fun n =>
      if n = str "boom" then some (fun _ _ => .error ()) else none }

/-- A regex clause whose pattern an unclosed bracket makes invalid. -/
def clauseBadRegex : FilterDef :=
  { type := some (str "regex"), pattern := some (str "[") }

/-- A hook clause naming the raising hook boom. -/
def clauseBoom : FilterDef :=
  { type := some (str "hook"), name := some (str "boom") }

/-- An action declaring the invalid regex clause. -/
def actionBadRegex : ActionDef := { filters := some [clauseBadRegex] }

/-- Witness for invalid_regex_or_raising_hook_fails_action on the
invalid regex clause under envBad. -/
theorem invalid_regex_fails_action_witness :
    actionBadRegex.filters = some [clauseBadRegex] ∧
    clauseBadRegex ∈ [clauseBadRegex] ∧
    ((∃ p, clauseBadRegex.type = some (str "regex") ∧
        clauseBadRegex.pattern = some p ∧ p ≠ [] ∧
        envBad.recompile p (clauseBadRegex.ignoreCase.getD true) = none) ∨
      (∃ n f e, clauseBadRegex.type = some (str "hook") ∧
        clauseBadRegex.name = some n ∧ n ≠ [] ∧
        envBad.resolve n = some f ∧ f fpX clauseBadRegex.context = .error e)) ∧
    (action_matches_common_filters envBad actionBadRegex fpX none).1 = false :=
  ⟨rfl, by decide, Or.inl ⟨str "[", rfl, rfl, by decide, rfl⟩,
   invalid_regex_or_raising_hook_fails_action envBad actionBadRegex fpX none
     clauseBadRegex [clauseBadRegex] rfl (by decide)
     (Or.inl ⟨str "[", rfl, rfl, by decide, rfl⟩)⟩

/-- C10: an action declaring a filter clause whose type is none of
regex, hook and noSource evaluates to fail, without raising: the
unsupported-type branch returns failure for the whole action rather
than skipping the clause. -/
theorem unrecognized_clause_type_fails_action (env : Env) (a : ActionDef)
    (fp : PyPath) (ctx : Option EvalCtx) (C : FilterDef) (l : List FilterDef)
    (hfilters : a.filters = some l) (hC : C ∈ l)
    (h1 : C.type ≠ some (str "regex")) (h2 : C.type ≠ some (str "hook"))
    (h3 : C.type ≠ some (str "noSource")) :
    (action_matches_common_filters env a fp ctx).1 = false :=
  action_matches_false_of_bad_clause env a fp ctx C l hfilters hC
    (evalClause_unknown_type env fp (hasSource ctx) C h1 h2 h3)

/-- A clause of an unrecognized type. -/
def clauseOdd : FilterDef := { type := some (str "shellGlob") }

/-- An action declaring only the unrecognized clause. -/
def actionOdd : ActionDef := { filters := some [clauseOdd] }

/-- Witness for unrecognized_clause_type_fails_action on the concrete
shellGlob clause. -/
theorem unrecognized_clause_type_fails_action_witness :
    actionOdd.filters = some [clauseOdd] ∧
    clauseOdd ∈ [clauseOdd] ∧
    clauseOdd.type ≠ some (str "regex") ∧
    clauseOdd.type ≠ some (str "hook") ∧
    clauseOdd.type ≠ some (str "noSource") ∧
    (action_matches_common_filters envCE actionOdd fpX none).1 = false :=
  ⟨rfl, by decide, by decide, by decide, by decide,
   unrecognized_clause_type_fails_action envCE actionOdd fpX none clauseOdd
     [clauseOdd] rfl (by decide) (by decide) (by decide) (by decide)⟩

/-- C3: evaluating the hook clause that names changeExtension with the
mapping zip to cbz against the file x.zip passes and produces the
overlay binding new_extension (the key the specification calls
newExtension) to cbz, and the executor filename computation renames the
transferred file to x.cbz. -/
theorem changeExtension_scenario :
    changeExtension_hook fpX ctxCE =
      .tuple true [(str "new_extension", str "cbz")] ∧
    action_matches_common_filters envCE actionCE fpX none =
      (true, [(str "new_extension", str "cbz")]) ∧
    execute_scp_filename actionCE fpX [(str "new_extension", str "cbz")] =
      str "x.cbz" := by
  decide

end Pelagos
